import Mathlib

/-!
Verification of the ISOtope 2D parametric sketch solver against its
natural-language specification.

The development shallowly embeds the two core source files that the claims
refer to:

* `src/constraints/lines/vertical_line.rs` — the `VerticalLine` constraint
  (`loss_value`, `update_gradient`), modelled over `ℝ` so that exact
  derivatives can be stated.  The `Line` primitive itself is not among the
  provided sources; its flattened parameter layout and its start/end routing
  Jacobians are modelled from the specification (§4.1).
* `src/solvers/bfgs_solver.rs` — `BFGSSolver::solve`, modelled over `ℚ`
  (an exact-arithmetic idealization of `f64`) with the sketch abstracted as a
  pure loss oracle `floss` and gradient oracle `fgrad`, exactly as the spec
  describes the solver consuming the sketch as a black box `f(x), ∇f(x)`.
  The inner bracketing loop is given explicit fuel; its termination theorem
  states that the fuel bound used by the solver is never exhausted.
* The finiteness assertion at the top of each BFGS iteration is additionally
  modelled over a tagged float type `F64` so that non-finite gradient entries
  can be represented.
-/

set_option maxHeartbeats 1000000

namespace ISOtope

/-! ## VerticalLine constraint — src/constraints/lines/vertical_line.rs -/

namespace VerticalLine

/-- Translated from `VerticalLine::loss_value` (vertical_line.rs lines 33–38):
reads the start and end coordinates of the line, forms `dx = end.x - start.x`
and returns `0.5 * dx * dx`.  The two points are given by their coordinate
pairs. -/
def loss_value (s e : ℝ × ℝ) : ℝ :=
  let dx := e.1 - s.1
  0.5 * dx * dx

/-- Modelled from the spec: the `Line` primitive source is not provided; per
spec §4.1 a line's flattened parameter vector is the start point's `(x, y)`
followed by the end point's `(x, y)` ("start-point parameters first, then
end-point parameters").  This extracts the start point. -/
def lineStart (p : Fin 4 → ℝ) : ℝ × ℝ := (p 0, p 1)

/-- Modelled from the spec: the end point of the line's flattened parameter
vector (coordinates 2 and 3). -/
def lineEnd (p : Fin 4 → ℝ) : ℝ × ℝ := (p 2, p 3)

/-- Modelled from the spec: `Line::start_gradient`, the 2×4 routing Jacobian
that is "the 2×2 identity placed in the columns corresponding to S's
parameters" (spec §4.1). -/
def start_gradient : Matrix (Fin 2) (Fin 4) ℝ :=
  Matrix.of ![![1, 0, 0, 0], ![0, 1, 0, 0]]

/-- Modelled from the spec: `Line::end_gradient`, the 2×2 identity placed in
the columns of E's parameters (spec §4.1). -/
def end_gradient : Matrix (Fin 2) (Fin 4) ℝ :=
  Matrix.of ![![0, 0, 1, 0], ![0, 0, 0, 1]]

/-- `VerticalLine::loss_value` as a function of the line's flattened
parameter vector. -/
def loss_flat (p : Fin 4 → ℝ) : ℝ := loss_value (lineStart p) (lineEnd p)

/-- State of the line primitive as seen by the constraint: its flattened
parameter vector and its accumulated gradient buffer. -/
structure LineState where
  params : Fin 4 → ℝ
  grad : Fin 4 → ℝ

/-- Translated from `VerticalLine::update_gradient` (vertical_line.rs lines
40–56): computes `dx = end.x - start.x`, forms the 1×2 row
`gradient_constraint = [dx, 0]`, and performs two `add_to_gradient` calls on
the line, adding `-gradient_constraint * start_gradient` and then
`gradient_constraint * end_gradient` to the line's gradient buffer. -/
def update_gradient (st : LineState) : LineState :=
  let s := lineStart st.params
  let e := lineEnd st.params
  let dx := e.1 - s.1
  let gradient_constraint : Fin 2 → ℝ := ![dx, 0]
  let st1 : LineState :=
    { params := st.params
      grad := st.grad + Matrix.vecMul (-gradient_constraint) start_gradient }
  { params := st1.params
    grad := st1.grad + Matrix.vecMul gradient_constraint end_gradient }

/-- The total contribution that one `update_gradient` call adds to the line's
gradient buffer, as a function of the line's parameters only. -/
def gradient_contribution (p : Fin 4 → ℝ) : Fin 4 → ℝ :=
  let dx := (lineEnd p).1 - (lineStart p).1
  Matrix.vecMul (-(![dx, 0])) start_gradient + Matrix.vecMul ![dx, 0] end_gradient

end VerticalLine

/-! ## BFGS solver — src/solvers/bfgs_solver.rs

The solver is modelled over `ℚ` (exact-arithmetic idealization of `f64`).
The sketch is abstracted as a pure loss oracle `floss : Vec n → ℚ` and a
pure gradient oracle `fgrad : Vec n → Vec n`; the spec (§4.4, §5) states
that the solver consumes the sketch only through `get_loss`/`get_gradient`
driven by `set_data`, and that both are deterministic functions of the flat
data vector. -/

namespace BFGSSolver

/-- Flat data vector of the sketch. -/
abbrev Vec (n : ℕ) := Fin n → ℚ

/-- Inverse-Hessian approximation. -/
abbrev Mat (n : ℕ) := Matrix (Fin n) (Fin n) ℚ

/-- Literal `1e-16`, the alpha floor checked at the top of the outer loop
(bfgs_solver.rs line 58) and the `s_dot_y` threshold (line 118). -/
def eps16 : ℚ := 1 / 10 ^ 16

/-- Literal `1e-10`, the bracketing alpha floor (bfgs_solver.rs line 92). -/
def eps_bracket : ℚ := 1 / 10 ^ 10

/-- Literal `1e-6`, the regularizer added to `s_dot_y` (line 120). -/
def sdy_reg : ℚ := 1 / 10 ^ 6

/-- Solver parameters (bfgs_solver.rs lines 9–15). -/
structure Params where
  max_iterations : ℕ
  min_loss : ℚ
  step_alpha : ℚ
  alpha_search_steps : ℕ

/-- Translated from `BFGSSolver::new` (lines 18–26): the default
parameters. -/
def Params.new : Params :=
  { max_iterations := 1000
    min_loss := 1 / 10 ^ 16
    step_alpha := 1 / 10 ^ 2
    alpha_search_steps := 400 }

/-- Return value of `solve`.  `ok` is `Ok(())`; `err` is the `Err` side of
the Rust `Result`, which `solve` never constructs; `fuelOut` is a modelling
artifact marking exhaustion of the explicit fuel given to the inner
bracketing loop, proved unreachable below. -/
inductive SolveResult where
  | ok : SolveResult
  | err : SolveResult
  | fuelOut : SolveResult
deriving DecidableEq

/-- Outcome of the bracketing loop (lines 84–95): either the loop `break`s
with the current alpha (`bracketed α`), or alpha dropped below `1e-10` and
the solver does `return Ok(())` (`earlyOk`). -/
inductive Bracket where
  | earlyOk : Bracket
  | bracketed : ℚ → Bracket
deriving DecidableEq

/-- Guard `iterations < max_iterations && loss > min_loss` of the outer
`while` (line 57), on the loss side.  The `loss` variable starts as
`f64::INFINITY` (line 48), modelled as `none`, which exceeds every finite
`min_loss`. -/
def loss_above_min : Option ℚ → ℚ → Bool
  | none, _ => true
  | some l, m => decide (m < l)

/-- Search direction `p = -(&h) * &gradient` (line 77). -/
def search_direction {n : ℕ} (h : Mat n) (g : Vec n) : Vec n :=
  -(h.mulVec g)

/-- Fuel bound for the bracketing loop: enough halvings to drive `α` below
`eps_bracket = 1e-10`.  The loop itself (lines 84–95) has no fuel in the
source; the termination theorem below proves this bound is never
exhausted. -/
def halving_fuel (α : ℚ) : ℕ := ⌈α * 10 ^ 10⌉₊ + 1

/-- Translated from the bracketing loop (lines 84–95): probe the loss at
`data + 20 * α * p`; if it does not exceed `loss`, `break` with the current
`α`; otherwise halve `α`, and if `α` dropped below `1e-10`, `return Ok(())`
(`earlyOk`); otherwise continue.  `none` marks fuel exhaustion. -/
def bracket_loop {n : ℕ} (floss : Vec n → ℚ) (data p : Vec n) (loss : ℚ) :
    ℕ → ℚ → Option Bracket
  | 0, _ => none
  | fuel + 1, α =>
    if floss (data + (20 * α) • p) ≤ loss then some (.bracketed α)
    else if α / 2 < eps_bracket then some .earlyOk
    else bracket_loop floss data p loss fuel (α / 2)

/-- One step of the line-search scan (lines 98–106): replace the recorded
`(best_alpha, loss)` pair exactly when the probed loss is strictly
smaller. -/
def search_step {n : ℕ} (floss : Vec n → ℚ) (data p : Vec n) (α : ℚ)
    (best : ℚ × ℚ) (i : ℕ) : ℚ × ℚ :=
  if floss (data + (α * (i : ℚ)) • p) < best.2
  then (α * (i : ℚ), floss (data + (α * (i : ℚ)) • p))
  else best

/-- Translated from the line search (lines 97–106): scan
`i = 0 .. alpha_search_steps - 1`, starting from `best_alpha = 0` with the
current loss `fx = f(x)`, recording the best `(i * α, loss)` found. -/
def line_search {n : ℕ} (floss : Vec n → ℚ) (data p : Vec n) (fx α : ℚ)
    (steps : ℕ) : ℚ × ℚ :=
  (List.range steps).foldl (search_step floss data p α) (0, fx)

/-- Translated from the BFGS inverse-Hessian update (lines 117–125):
`s_dot_y` with the `1e-6` regularizer when `|s_dot_y| < 1e-16`, then
`h + factor * (s sᵀ) / s_dot_y² - (h y sᵀ + s yᵀ h) / s_dot_y` with
`factor = s_dot_y + yᵀ h y`. -/
def bfgs_update {n : ℕ} (h : Mat n) (s y : Vec n) : Mat n :=
  let sdy0 := Matrix.dotProduct s y
  let s_dot_y := if |sdy0| < eps16 then sdy0 + sdy_reg else sdy0
  let factor := s_dot_y + Matrix.dotProduct y (h.mulVec y)
  h + (factor / (s_dot_y * s_dot_y)) • Matrix.vecMulVec s s
    - (1 / s_dot_y) • (Matrix.vecMulVec (h.mulVec y) s + Matrix.vecMulVec s y * h)

/-- Translated from the outer `while` loop of `BFGSSolver::solve` (lines
57–129).  `rem` is the remaining iteration budget
`max_iterations - iterations`; `loss` is the loss variable carried across
iterations (`none` models the initial `f64::INFINITY`).  Each pass reads
the gradient and loss at the current data, forms `p = -h * gradient`,
doubles `α` and runs the bracketing loop, then the line search, writes back
`data + best_alpha * p`, and performs the BFGS update.  The finiteness
assertions of lines 64 and 78 hold trivially in exact arithmetic (every
rational is finite); they are modelled separately over tagged floats
below. -/
def solve_loop {n : ℕ} (floss : Vec n → ℚ) (fgrad : Vec n → Vec n)
    (min_loss : ℚ) (steps : ℕ) :
    ℕ → Mat n → Vec n → ℚ → Option ℚ → SolveResult
  | 0, _, _, _, _ => .ok
  | rem + 1, h, data, α, loss =>
    if loss_above_min loss min_loss = false then .ok
    else if α < eps16 then .ok
    else
      match bracket_loop floss data (search_direction h (fgrad data))
          (floss data) (halving_fuel (2 * α)) (2 * α) with
      | none => .fuelOut
      | some .earlyOk => .ok
      | some (.bracketed αB) =>
        let p := search_direction h (fgrad data)
        let best := line_search floss data p (floss data) αB steps
        let s := best.1 • p
        let newData := data + s
        let y := fgrad newData - fgrad data
        solve_loop floss fgrad min_loss steps rem (bfgs_update h s y) newData
          αB (some best.2)

/-- Translated from `BFGSSolver::solve` (lines 46–132): starts with
`iterations = 0`, `loss = ∞`, `h = identity`, `data = get_data()`,
`alpha = step_alpha`. -/
def solve {n : ℕ} (floss : Vec n → ℚ) (fgrad : Vec n → Vec n) (P : Params)
    (data0 : Vec n) : SolveResult :=
  solve_loop floss fgrad P.min_loss P.alpha_search_steps P.max_iterations 1
    data0 P.step_alpha none

end BFGSSolver

/-! ## Finiteness assertion — bfgs_solver.rs lines 63–67, over tagged floats -/

namespace BFGSSolver

/-- Tagged model of an `f64` value: a finite rational, a NaN, or a signed
infinity. -/
inductive F64 where
  | num : ℚ → F64
  | nan : F64
  | posInf : F64
  | negInf : F64
deriving DecidableEq

/-- `f64::is_finite`: true exactly on finite numbers. -/
def F64.isFinite : F64 → Bool
  | num _ => true
  | _ => false

/-- Outcome of the gradient-finiteness assertion at the top of a BFGS
iteration: either the `assert!` panics (with the message "gradient contains
non-finite values"), or the iteration proceeds with the gradient. -/
inductive GradStep where
  | panicked : GradStep
  | proceed : List F64 → GradStep
deriving DecidableEq

/-- Translated from bfgs_solver.rs lines 63–67: the iteration reads the
gradient and executes
`assert!(gradient.iter().all(|x| x.is_finite()), ...)`;
an `assert!` whose condition fails panics, otherwise the iteration proceeds
with the gradient. -/
def gradient_finite_check (g : List F64) : GradStep :=
  if g.all F64.isFinite then .proceed g
  else .panicked

end BFGSSolver

end ISOtope

namespace ISOtope

namespace VerticalLine

lemma gradient_contribution_eq (p : Fin 4 → ℝ) :
    gradient_contribution p = ![-(p 2 - p 0), 0, p 2 - p 0, 0] := by
  funext j
  fin_cases j <;>
    simp [gradient_contribution, Matrix.vecMul, Matrix.dotProduct, start_gradient,
      end_gradient, lineStart, lineEnd, Fin.sum_univ_two]

/-- C5: for every line, `VerticalLine::loss_value` returns
`½ (E.x − S.x)²` where `S` and `E` are the current coordinates of the line's
start and end points. -/
theorem loss_value_formula (s e : ℝ × ℝ) :
    loss_value s e = 1 / 2 * (e.1 - s.1) ^ 2 := by
  simp only [loss_value]
  ring

/-- C6: for every line and every parameter values,
`VerticalLine::loss_value` is nonnegative, and it is zero exactly when the
end point's x coordinate equals the start point's x coordinate. -/
theorem loss_value_nonneg_iff (s e : ℝ × ℝ) :
    0 ≤ loss_value s e ∧ (loss_value s e = 0 ↔ e.1 = s.1) := by
  constructor
  · simp only [loss_value]
    nlinarith [mul_self_nonneg (e.1 - s.1)]
  · constructor
    · intro h
      simp only [loss_value] at h
      have hdx : e.1 - s.1 = 0 := by nlinarith [mul_self_nonneg (e.1 - s.1)]
      linarith
    · intro h
      simp [loss_value, h]

/-- C8: `VerticalLine::update_gradient` leaves the primitive's parameter
data untouched, and its only effect on the line's gradient buffer is to add
a vector computed from the parameters alone: it never reads the accumulated
gradient values and never zeroes or overwrites them. -/
theorem update_gradient_additive (st : LineState) :
    (update_gradient st).params = st.params ∧
      (update_gradient st).grad = st.grad + gradient_contribution st.params := by
  refine ⟨rfl, ?_⟩
  simp [update_gradient, gradient_contribution, add_assoc]

/-- C2: for every parameter values of the line's two endpoint points, the
gradient contribution that `VerticalLine::update_gradient` adds to the
line's gradient buffer (the row `[dx, 0]` routed through the start and end
routing Jacobians, with the minus sign on the start route) equals the exact
derivative of `VerticalLine::loss_value` with respect to each coordinate of
the line's flattened parameter vector. -/
theorem update_gradient_exact (p : Fin 4 → ℝ) (i : Fin 4) :
    HasDerivAt (fun t => loss_flat (Function.update p i t))
      (gradient_contribution p i) (p i) := by
  rw [gradient_contribution_eq]
  fin_cases i
  · show HasDerivAt (fun t => loss_flat (Function.update p 0 t)) (-(p 2 - p 0)) (p 0)
    have h : (fun t => loss_flat (Function.update p 0 t)) =
        fun t => 0.5 * ((p 2 - t) * (p 2 - t)) := by
      funext t
      simp [loss_flat, loss_value, lineStart, lineEnd, Function.update, mul_assoc]
    rw [h]
    have hd : HasDerivAt (fun t : ℝ => p 2 - t) (-1) (p 0) :=
      (hasDerivAt_id (p 0)).const_sub (p 2)
    have := ((hd.mul hd).const_mul (0.5 : ℝ))
    convert this using 1
    simp
    ring
  · show HasDerivAt (fun t => loss_flat (Function.update p 1 t)) 0 (p 1)
    have h : (fun t => loss_flat (Function.update p 1 t)) =
        fun _ => 0.5 * ((p 2 - p 0) * (p 2 - p 0)) := by
      funext t
      simp [loss_flat, loss_value, lineStart, lineEnd, Function.update, mul_assoc]
    rw [h]
    simpa using hasDerivAt_const (p 1) (0.5 * ((p 2 - p 0) * (p 2 - p 0)))
  · show HasDerivAt (fun t => loss_flat (Function.update p 2 t)) (p 2 - p 0) (p 2)
    have h : (fun t => loss_flat (Function.update p 2 t)) =
        fun t => 0.5 * ((t - p 0) * (t - p 0)) := by
      funext t
      simp [loss_flat, loss_value, lineStart, lineEnd, Function.update, mul_assoc]
    rw [h]
    have hd : HasDerivAt (fun t : ℝ => t - p 0) 1 (p 2) :=
      (hasDerivAt_id (p 2)).sub_const (p 0)
    have := ((hd.mul hd).const_mul (0.5 : ℝ))
    convert this using 1
    simp
    ring
  · show HasDerivAt (fun t => loss_flat (Function.update p 3 t)) 0 (p 3)
    have h : (fun t => loss_flat (Function.update p 3 t)) =
        fun _ => 0.5 * ((p 2 - p 0) * (p 2 - p 0)) := by
      funext t
      simp [loss_flat, loss_value, lineStart, lineEnd, Function.update, mul_assoc]
    rw [h]
    simpa using hasDerivAt_const (p 3) (0.5 * ((p 2 - p 0) * (p 2 - p 0)))

end VerticalLine

namespace BFGSSolver

lemma bracket_loop_none_bound {n : ℕ} (floss : Vec n → ℚ) (data p : Vec n)
    (loss : ℚ) :
    ∀ (fuel : ℕ) (α : ℚ), bracket_loop floss data p loss fuel α = none →
      fuel = 0 ∨ eps_bracket ≤ α / 2 ^ fuel := by
  intro fuel
  induction fuel with
  | zero => intro α _; exact Or.inl rfl
  | succ fuel ih =>
    intro α hnone
    rw [bracket_loop] at hnone
    by_cases h1 : floss (data + (20 * α) • p) ≤ loss
    · rw [if_pos h1] at hnone; simp at hnone
    · rw [if_neg h1] at hnone
      by_cases h2 : α / 2 < eps_bracket
      · rw [if_pos h2] at hnone; simp at hnone
      · rw [if_neg h2] at hnone
        rcases ih (α / 2) hnone with h0 | hge
        · subst h0
          right
          simpa using not_lt.mp h2
        · right
          have hp : α / 2 / 2 ^ fuel = α / 2 ^ (fuel + 1) := by
            rw [pow_succ]; ring
          rw [← hp]
          exact hge

lemma halving_fuel_spec (α : ℚ) : α / 2 ^ halving_fuel α < eps_bracket := by
  have h2 : (0 : ℚ) < 2 ^ halving_fuel α := by positivity
  rw [div_lt_iff₀ h2, eps_bracket]
  have hle : α * 10 ^ 10 ≤ (⌈α * 10 ^ 10⌉₊ : ℚ) := Nat.le_ceil _
  have hlt : ((⌈α * 10 ^ 10⌉₊ : ℕ) : ℚ) < (2 : ℚ) ^ (⌈α * 10 ^ 10⌉₊ + 1) := by
    have h1 : ⌈α * 10 ^ 10⌉₊ < 2 ^ (⌈α * 10 ^ 10⌉₊ + 1) :=
      lt_of_lt_of_le (Nat.lt_two_pow _)
        (Nat.pow_le_pow_right (by norm_num) (Nat.le_succ _))
    exact_mod_cast h1
  have hkey : α * 10 ^ 10 < 2 ^ halving_fuel α := by
    rw [halving_fuel]
    exact lt_of_le_of_lt hle hlt
  linarith

lemma bracket_loop_isSome {n : ℕ} (floss : Vec n → ℚ) (data p : Vec n)
    (loss α : ℚ) :
    bracket_loop floss data p loss (halving_fuel α) α ≠ none := by
  intro hnone
  rcases bracket_loop_none_bound floss data p loss (halving_fuel α) α hnone with
    h0 | hge
  · simp [halving_fuel] at h0
  · exact absurd (halving_fuel_spec α) (not_lt.mpr hge)

lemma solve_loop_eq_ok {n : ℕ} (floss : Vec n → ℚ) (fgrad : Vec n → Vec n)
    (min_loss : ℚ) (steps : ℕ) :
    ∀ (rem : ℕ) (h : Mat n) (data : Vec n) (α : ℚ) (loss : Option ℚ),
      solve_loop floss fgrad min_loss steps rem h data α loss =
        SolveResult.ok := by
  intro rem
  induction rem with
  | zero => intro h data α loss; rw [solve_loop]
  | succ rem ih =>
    intro h data α loss
    rw [solve_loop]
    by_cases hmin : loss_above_min loss min_loss = false
    · rw [if_pos hmin]
    · rw [if_neg hmin]
      by_cases halp : α < eps16
      · rw [if_pos halp]
      · rw [if_neg halp]
        cases hbr : bracket_loop floss data (search_direction h (fgrad data))
            (floss data) (halving_fuel (2 * α)) (2 * α) with
        | none => exact absurd hbr (bracket_loop_isSome floss data _ _ _)
        | some br =>
          cases br with
          | earlyOk => rfl
          | bracketed αB => exact ih _ _ _ _

/-- C7: `BFGSSolver::solve` terminates for every sketch: the inner
bracketing loop (alpha strictly halved each pass until a probe succeeds or
alpha falls below `1e-10`) never exhausts its halving fuel bound, and the
outer loop, recursing on the remaining iteration budget
`max_iterations - iterations` and stopping as soon as the loss is at most
`min_loss` or the alpha floor `1e-16` is hit, never reports fuel
exhaustion. -/
theorem solve_terminates {n : ℕ} (floss : Vec n → ℚ) (fgrad : Vec n → Vec n)
    (min_loss : ℚ) (steps rem : ℕ) (h : Mat n) (data : Vec n) (α : ℚ)
    (loss : Option ℚ) :
    (∀ (p : Vec n) (fx α0 : ℚ),
        bracket_loop floss data p fx (halving_fuel α0) α0 ≠ none)
    ∧ solve_loop floss fgrad min_loss steps rem h data α loss ≠
        SolveResult.fuelOut := by
  refine ⟨fun p fx α0 => bracket_loop_isSome floss data p fx α0, ?_⟩
  rw [solve_loop_eq_ok floss fgrad min_loss steps rem h data α loss]
  decide

/-- C10: `BFGSSolver::solve` always returns `Ok(())` for every sketch
oracle and every parameter setting: no execution path produces an `Err`
value, so non-convergence, bracketing failure and the iteration cap are
never surfaced through the `Result`. -/
theorem solve_always_ok {n : ℕ} (floss : Vec n → ℚ) (fgrad : Vec n → Vec n)
    (P : Params) (data0 : Vec n) :
    solve floss fgrad P data0 = SolveResult.ok :=
  solve_loop_eq_ok floss fgrad P.min_loss P.alpha_search_steps
    P.max_iterations 1 data0 P.step_alpha none

/-- C4: the bracketing phase doubles alpha on entry and then halves it
while the probed loss at `x + 20 α p` exceeds the loss at `x`; if the
halved alpha drops below `1e-10`, `solve` returns success immediately.
Conjunct 1 is the halving step (taken exactly when the probe exceeds the
current loss), conjunct 2 the `break` with the current alpha when it does
not, and conjunct 3 the immediate `Ok` return of the solver loop — which
enters the bracketing loop at `2 * α` — when bracketing ends with the
alpha floor hit. -/
theorem bracketing_spec {n : ℕ} (floss : Vec n → ℚ) (fgrad : Vec n → Vec n)
    (min_loss : ℚ) (steps rem : ℕ) (h : Mat n) (data : Vec n) (α : ℚ)
    (loss : Option ℚ) :
    (∀ (p : Vec n) (fx α0 : ℚ) (fuel : ℕ),
        fx < floss (data + (20 * α0) • p) →
        bracket_loop floss data p fx (fuel + 1) α0 =
          if α0 / 2 < eps_bracket then some Bracket.earlyOk
          else bracket_loop floss data p fx fuel (α0 / 2))
    ∧ (∀ (p : Vec n) (fx α0 : ℚ) (fuel : ℕ),
        floss (data + (20 * α0) • p) ≤ fx →
        bracket_loop floss data p fx (fuel + 1) α0 =
          some (Bracket.bracketed α0))
    ∧ (loss_above_min loss min_loss = true →
        ¬ α < eps16 →
        bracket_loop floss data (search_direction h (fgrad data)) (floss data)
            (halving_fuel (2 * α)) (2 * α) = some Bracket.earlyOk →
        solve_loop floss fgrad min_loss steps (rem + 1) h data α loss =
          SolveResult.ok) := by
  refine ⟨?_, ?_, ?_⟩
  · intro p fx α0 fuel hgt
    rw [bracket_loop, if_neg (not_le.mpr hgt)]
  · intro p fx α0 fuel hle
    rw [bracket_loop, if_pos hle]
  · intro hmin halp hbr
    rw [solve_loop, if_neg (by simp [hmin]), if_neg halp, hbr]

unseal Rat.mul Rat.add Rat.sub Rat.inv in
/-- Witness for the bracketing theorem at a concrete one-dimensional
instance: loss `v ↦ v 0`, constant gradient `-1`, `data = 0`,
`alpha = 1e-10`.  Every probe strictly increases the loss, so the
bracketing loop halves alpha below `1e-10` and the solver loop returns
`Ok` on this pass. -/
theorem bracketing_spec_witness :
    solve_loop (fun v : Vec 1 => v 0) (fun _ _ => -1) (1 / 10 ^ 16) 400 1 1
      (fun _ => 0) (1 / 10 ^ 10) none = SolveResult.ok :=
  (bracketing_spec (fun v : Vec 1 => v 0) (fun _ _ => -1) (1 / 10 ^ 16) 400 0
      1 (fun _ => 0) (1 / 10 ^ 10) none).2.2
    (by decide) (by decide) (by decide)

lemma line_search_foldl {n : ℕ} (floss : Vec n → ℚ) (data p : Vec n)
    (α : ℚ) :
    ∀ (l : List ℕ) (b : ℚ × ℚ), b.2 = floss (data + b.1 • p) →
      (l.foldl (search_step floss data p α) b).2
          = floss (data + (l.foldl (search_step floss data p α) b).1 • p)
      ∧ (l.foldl (search_step floss data p α) b).2 ≤ b.2
      ∧ (l.foldl (search_step floss data p α) b = b
          ∨ (l.foldl (search_step floss data p α) b).2 < b.2) := by
  intro l
  induction l with
  | nil => intro b hb; exact ⟨hb, le_refl _, Or.inl rfl⟩
  | cons i l ih =>
    intro b hb
    rw [List.foldl_cons]
    by_cases hc : floss (data + (α * (i : ℚ)) • p) < b.2
    · have hstep : search_step floss data p α b i =
          (α * (i : ℚ), floss (data + (α * (i : ℚ)) • p)) := by
        rw [search_step, if_pos hc]
      rw [hstep]
      obtain ⟨h1, h2, _⟩ := ih (α * (i : ℚ), floss (data + (α * (i : ℚ)) • p)) rfl
      exact ⟨h1, le_trans h2 (le_of_lt hc), Or.inr (lt_of_le_of_lt h2 hc)⟩
    · have hstep : search_step floss data p α b i = b := by
        rw [search_step, if_neg hc]
      rw [hstep]
      exact ih b hb

/-- C9: across a completed BFGS iteration the loss is non-increasing.  The
line search starts from the fallback `best_alpha = 0` whose loss is
`f(x)` and replaces it only by strictly smaller probed losses, so the pair
it returns satisfies: its recorded loss is the loss of the written-back
point `x + best_alpha * p`, that loss does not exceed `f(x)`, and either no
trial improved — then `best_alpha = 0` and the data is rewritten
unchanged — or the final loss is strictly smaller than `f(x)`. -/
theorem line_search_non_increasing {n : ℕ} (floss : Vec n → ℚ)
    (data p : Vec n) (fx α : ℚ) (steps : ℕ) (hfx : fx = floss data) :
    (line_search floss data p fx α steps).2
        = floss (data + (line_search floss data p fx α steps).1 • p)
    ∧ (line_search floss data p fx α steps).2 ≤ fx
    ∧ ((line_search floss data p fx α steps).1 = 0
        ∨ (line_search floss data p fx α steps).2 < fx) := by
  have hb : ((0 : ℚ), fx).2 = floss (data + ((0 : ℚ), fx).1 • p) := by
    simpa using hfx
  obtain ⟨h1, h2, h3⟩ :=
    line_search_foldl floss data p α (List.range steps) (0, fx) hb
  refine ⟨h1, h2, ?_⟩
  rcases h3 with h3 | h3
  · left
    rw [line_search, h3]
  · right
    exact h3

unseal Rat.mul Rat.add Rat.sub Rat.inv in
/-- Witness for the line-search theorem at a concrete one-dimensional
instance: loss `v ↦ v 0 * v 0`, `data = 1`, `p = -1`, `alpha = 1/2`,
three scan steps. -/
theorem line_search_non_increasing_witness :
    ((1 : ℚ) = (fun v : Vec 1 => v 0 * v 0) ((fun _ => 1) : Vec 1))
    ∧ ((line_search (fun v : Vec 1 => v 0 * v 0) ((fun _ => 1) : Vec 1)
          ((fun _ => -1) : Vec 1) 1 (1 / 2) 3).2
        = (fun v : Vec 1 => v 0 * v 0) (((fun _ => 1) : Vec 1) +
            (line_search (fun v : Vec 1 => v 0 * v 0) ((fun _ => 1) : Vec 1)
              ((fun _ => -1) : Vec 1) 1 (1 / 2) 3).1 • ((fun _ => -1) : Vec 1))
      ∧ (line_search (fun v : Vec 1 => v 0 * v 0) ((fun _ => 1) : Vec 1)
          ((fun _ => -1) : Vec 1) 1 (1 / 2) 3).2 ≤ 1
      ∧ ((line_search (fun v : Vec 1 => v 0 * v 0) ((fun _ => 1) : Vec 1)
            ((fun _ => -1) : Vec 1) 1 (1 / 2) 3).1 = 0
        ∨ (line_search (fun v : Vec 1 => v 0 * v 0) ((fun _ => 1) : Vec 1)
            ((fun _ => -1) : Vec 1) 1 (1 / 2) 3).2 < 1)) :=
  ⟨by decide,
    line_search_non_increasing (fun v : Vec 1 => v 0 * v 0)
      ((fun _ => 1) : Vec 1) ((fun _ => -1) : Vec 1) 1 (1 / 2) 3 (by decide)⟩

/-- C3 counterexample: at the concrete gradient `[NaN]` the finiteness
assertion at the top of the BFGS iteration panics; the iteration does not
return normally, refuting the claim that on a non-finite gradient the
solver returns a best-effort result to the caller rather than
panicking. -/
theorem gradient_nan_panics :
    gradient_finite_check [F64.nan] = GradStep.panicked := rfl

/-- C3 amended: if, during a BFGS solve iteration, the gradient returned by
the sketch contains a non-finite component, the solver panics via the
assertion `assert!(gradient.iter().all(|x| x.is_finite()), ...)` rather
than returning to the caller. -/
theorem gradient_nonfinite_asserts (g : List F64)
    (hg : g.all F64.isFinite = false) :
    gradient_finite_check g = GradStep.panicked := by
  rw [gradient_finite_check, if_neg (by simp [hg])]

/-- Witness: the amended C3 theorem applied at the concrete gradient
`[NaN]`. -/
theorem gradient_nonfinite_asserts_witness :
    ([F64.nan].all F64.isFinite = false)
    ∧ gradient_finite_check [F64.nan] = GradStep.panicked :=
  ⟨rfl, gradient_nonfinite_asserts [F64.nan] rfl⟩

end BFGSSolver

end ISOtope
